import Mathlib

/-!
Verification of the `pawsitive_care` appointment subsystem.

The Python source is shallowly embedded: Django model instances become Lean
structures, the database becomes an explicit list of rows, a `datetime` is a
number of minutes since a fixed epoch (so a calendar day is `t / 1440` and a
`timedelta` is a plain number of minutes), and fallible Python code returns
`Except`. Each definition is translated directly from the named source
function; deviations forced by the embedding are noted in doc comments.
-/

/-- A Python `datetime` is embedded as a plain `Nat`: minutes since a fixed
epoch. The calendar day of a datetime (`date_time__date` in Django filters)
is `t / 1440`. -/
def dateOf (t : Nat) : Nat := t / 1440

/-- A user row (`accounts.CustomUser` as referenced from the appointment
code: the appointment code only reads `id`, `email` and the full name). -/
structure AUser where
  id : Nat
  email : String
  full_name : String
  deriving DecidableEq

/-- A pet owner reference (`pets.models.Pet.owner`). -/
structure Pet where
  name : String
  owner : AUser
  deriving DecidableEq

/-- An appointment object (`appoinments.models.Appointment`).

Fields `pet` … `clinic_branch` are `Option` because the `Appointment(...)`
constructor used by `AppointmentBuilder.build` accepts `None` for each of
them; a row loaded from the database has them populated.  The fields
`treatment_notes`, `diagnosis`, `follow_up_date` and `cancellation_reason`
are plain Python attributes set by the strategies (`strategy.py`); they are
not declared database columns, but the strategies store them on the object,
which the shallow store models. -/
structure Appointment where
  id : Option Nat
  pet : Option Pet
  service_type : Option String
  veterinarian : Option AUser
  date_time : Option Nat
  clinic_branch : Option Nat
  notes : String
  status : String
  treatment_notes : String := ""
  diagnosis : String := ""
  follow_up_date : Option Nat := none
  cancellation_reason : String := ""
  deriving DecidableEq

/-- An email handed to `django.core.mail.send_mail`. Message bodies in the
source are long f-strings; only the data they interpolate is kept. -/
structure Email where
  subject : String
  message : String
  recipients : List String
  deriving DecidableEq

/-! ## `appoinments/patterns/builder.py` — `AppointmentBuilder` -/

/-- The builder's internal `_appointment` dict
(`AppointmentBuilder.reset` sets exactly these defaults). -/
structure BuilderState where
  pet : Option Pet := none
  service_type : Option String := none
  veterinarian : Option AUser := none
  date_time : Option Nat := none
  clinic_branch : Option Nat := none
  notes : String := ""
  status : String := "pending"
  deriving DecidableEq

namespace AppointmentBuilder

/-- `AppointmentBuilder.reset`. -/
def reset : BuilderState := {}

/-- `AppointmentBuilder.set_pet`. -/
def set_pet (b : BuilderState) (p : Pet) : BuilderState := { b with pet := some p }

/-- `AppointmentBuilder.set_service`. -/
def set_service (b : BuilderState) (s : String) : BuilderState :=
  { b with service_type := some s }

/-- `AppointmentBuilder.set_veterinarian`. -/
def set_veterinarian (b : BuilderState) (v : AUser) : BuilderState :=
  { b with veterinarian := some v }

/-- `AppointmentBuilder.set_datetime`. -/
def set_datetime (b : BuilderState) (t : Nat) : BuilderState :=
  { b with date_time := some t }

/-- `AppointmentBuilder.set_clinic_branch`. -/
def set_clinic_branch (b : BuilderState) (c : Nat) : BuilderState :=
  { b with clinic_branch := some c }

/-- `AppointmentBuilder.set_notes`. -/
def set_notes (b : BuilderState) (n : String) : BuilderState := { b with notes := n }

/-- `AppointmentBuilder.set_status`. -/
def set_status (b : BuilderState) (s : String) : BuilderState := { b with status := s }

/-- `AppointmentBuilder.build`: constructs `Appointment(...)` from the dict
(a fresh object, `id = None`), then calls `self.reset()`. -/
def build (b : BuilderState) : Appointment × BuilderState :=
  ({ id := none
     pet := b.pet
     service_type := b.service_type
     veterinarian := b.veterinarian
     date_time := b.date_time
     clinic_branch := b.clinic_branch
     notes := b.notes
     status := b.status }, reset)

end AppointmentBuilder

/-- One call to a single setter method of `AppointmentBuilder`. -/
inductive SetterCall where
  | pet (p : Pet)
  | service (s : String)
  | veterinarian (v : AUser)
  | date_time (t : Nat)
  | clinic_branch (c : Nat)
  | notes (n : String)
  | status (s : String)

/-- Run one setter call on the builder. -/
def applyCall (b : BuilderState) : SetterCall → BuilderState
  | .pet p => AppointmentBuilder.set_pet b p
  | .service s => AppointmentBuilder.set_service b s
  | .veterinarian v => AppointmentBuilder.set_veterinarian b v
  | .date_time t => AppointmentBuilder.set_datetime b t
  | .clinic_branch c => AppointmentBuilder.set_clinic_branch b c
  | .notes n => AppointmentBuilder.set_notes b n
  | .status s => AppointmentBuilder.set_status b s

/-- Run a sequence of setter calls on the builder, left to right. -/
def applyCalls (b : BuilderState) (cs : List SetterCall) : BuilderState :=
  cs.foldl applyCall b

/-! ## `accounts/models.py` — `CustomUser` -/

namespace CustomUser

/-- `CustomUser.ROLE_CHOICES`. -/
def ROLE_CHOICES : List (String × String) :=
  [("admin", "Admin"), ("vet", "Veterinarian"), ("staff", "Staff"), ("client", "Client")]

/-- The `default='client'` of the `role` field. -/
def default_role : String := "client"

end CustomUser

/-- An `accounts.CustomUser` row (only the fields the role logic reads). -/
structure CustomUserRow where
  username : String
  phone : String
  address : String
  role : String := CustomUser.default_role
  deriving DecidableEq

namespace CustomUser

/-- `CustomUser.is_admin`. -/
def is_admin (u : CustomUserRow) : Bool := u.role == "admin"

/-- `CustomUser.is_vet`. -/
def is_vet (u : CustomUserRow) : Bool := u.role == "vet"

/-- `CustomUser.is_staff_member`. -/
def is_staff_member (u : CustomUserRow) : Bool := u.role == "staff"

/-- `CustomUser.is_client`. -/
def is_client (u : CustomUserRow) : Bool := u.role == "client"

end CustomUser

/-! ## `appoinments/patterns/repository.py` — `AppointmentRepository` -/

namespace AppointmentRepository

/-- The `while current_slot + duration <= end_time` loop of
`AppointmentRepository.get_available_slots`: a slot is kept when no existing
appointment satisfies
`current_slot < appt.date_time + duration and current_slot + duration > appt.date_time`.
The Python loop never terminates when `duration == 0`, so the guard carries
`0 < duration`; theorems assume a positive duration. -/
def slotLoop (duration end_time : Nat) (existing : List Nat)
    (current_slot : Nat) : List Nat :=
  if _h : 0 < duration ∧ current_slot + duration ≤ end_time then
    (if ∀ appt ∈ existing,
        ¬(current_slot < appt + duration ∧ current_slot + duration > appt)
      then [current_slot] else [])
      ++ slotLoop duration end_time existing (current_slot + duration)
  else []
termination_by end_time - current_slot
decreasing_by omega

/-- `AppointmentRepository.get_available_slots`: filters the store to this
veterinarian's confirmed appointments on `date`, then scans 9:00–17:00.
The source's `order_by('date_time')` does not affect the result: the loop
checks every filtered appointment. The loop reads only `appt.date_time`, so
the filtered rows are projected to their datetimes. -/
def get_available_slots (vet : AUser) (date : Nat) (db : List Appointment)
    (duration : Nat) : List Nat :=
  let existing_appointments := (db.filter (fun a =>
      a.veterinarian == some vet &&
      a.date_time.any (fun t => dateOf t == date) &&
      a.status == "confirmed")).filterMap (fun a => a.date_time)
  let start_time := date * 1440 + 9 * 60
  let end_time := date * 1440 + 17 * 60
  slotLoop duration end_time existing_appointments start_time

end AppointmentRepository

/-! ## `appoinments/patterns/vet_patterns/repository.py` —
`DjangoAppointmentRepository` -/

namespace DjangoAppointmentRepository

/-- `DjangoAppointmentRepository.get_by_id`: `Appointment.objects.get(id=...)`
returning `None` on `ObjectDoesNotExist`. A primary key is unique, so the
first match is the only one; theorems needing uniqueness assume
`(db.map (·.id)).Nodup`. -/
def get_by_id (db : List Appointment) (appointment_id : Nat) : Option Appointment :=
  db.find? (fun a => a.id == some appointment_id)

/-- The autoincrement primary key the database assigns on INSERT: one more
than the largest id in the store. -/
def freshId (db : List Appointment) : Nat :=
  (db.filterMap (fun a => a.id)).foldr max 0 + 1

/-- `DjangoAppointmentRepository.save` / `Appointment.save()`: an object with
a primary key overwrites its row; an object without one is inserted with a
fresh autoincrement id. -/
def save (a : Appointment) (db : List Appointment) : Appointment × List Appointment :=
  match a.id with
  | some _ => (a, db.map (fun b => if b.id = a.id then a else b))
  | none =>
    let a' := { a with id := some (freshId db) }
    (a', db ++ [a'])

/-- `DjangoAppointmentRepository.delete`: fetch by id, return `False` on
`ObjectDoesNotExist`, otherwise delete that row and return `True`. -/
def delete (db : List Appointment) (appointment_id : Nat) : Bool × List Appointment :=
  match db.find? (fun a => a.id == some appointment_id) with
  | some _ => (true, db.eraseP (fun a => a.id == some appointment_id))
  | none => (false, db)

/-- `DjangoAppointmentRepository.update_status`: fetch by id, set `status`,
`save(update_fields=['status'])`; `False` on `ObjectDoesNotExist`. -/
def update_status (db : List Appointment) (appointment_id : Nat)
    (new_status : String) : Bool × List Appointment :=
  match db.find? (fun a => a.id == some appointment_id) with
  | some a => (true, (save { a with status := new_status } db).2)
  | none => (false, db)

/-- The `while current_slot < day_end` loop of
`DjangoAppointmentRepository.get_available_slots`: a fixed 30-minute step,
and a slot is dropped only when `current_slot not in existing_appointments`
fails — an exact start-time membership test, not an interval-overlap test. -/
def djSlotLoop (day_end : Nat) (existing : List Nat)
    (current_slot : Nat) : List Nat :=
  if _h : current_slot < day_end then
    (if current_slot ∈ existing then [] else [current_slot])
      ++ djSlotLoop day_end existing (current_slot + 30)
  else []
termination_by day_end - current_slot
decreasing_by omega

/-- `DjangoAppointmentRepository.get_available_slots`: working window
8:00–18:00 on the day of `date`; `date_time__range=(day_start, day_end)` is
an inclusive range; `values_list('date_time', flat=True)` projects the rows
to their datetimes. -/
def get_available_slots (vet_id : Nat) (date : Nat)
    (db : List Appointment) : List Nat :=
  let day_start := dateOf date * 1440 + 8 * 60
  let day_end := dateOf date * 1440 + 18 * 60
  let existing := (db.filter (fun a =>
      a.veterinarian.any (fun v => v.id == vet_id) &&
      a.date_time.any (fun t => decide (day_start ≤ t) && decide (t ≤ day_end)))).filterMap
        (fun a => a.date_time)
  djSlotLoop day_end existing day_start

end DjangoAppointmentRepository

/-! ## `appoinments/patterns/vet_patterns/strategy.py` -/

/-- A Python exception escaping a strategy. -/
inductive PyErr where
  | valueError (msg : String)
  | attributeError (msg : String)
  deriving DecidableEq

/-- The mutable state a strategy touches: the appointment table and the
emails handed to `send_mail`. -/
structure DB where
  appointments : List Appointment
  emails : List Email
  deriving DecidableEq

/-- The `**kwargs` a strategy reads via `kwargs.get(...)`, with the source's
defaults. -/
structure Kwargs where
  treatment_notes : String := ""
  diagnosis : String := ""
  follow_up_date : Option Nat := none
  new_datetime : Option Nat := none
  reason : String := ""
  notify_client : Bool := true
  notes : String := ""
  new_vet : Option AUser := none
  deriving DecidableEq

/-- Outcome of `strategy.execute(appointment, **kwargs)`: either an
exception together with the state at the point it was raised, or the
mutated appointment and state. -/
abbrev StrategyResult := Except (PyErr × DB) (Appointment × DB)

/-- The `try`-shaped tail every strategy shares: a possibly-raising call
either propagates its exception or the strategy returns the saved
appointment with the final state. -/
def withSaved (saved : Appointment) (r : Except (PyErr × DB) DB) : StrategyResult :=
  match r with
  | .error e => .error e
  | .ok db => .ok (saved, db)

namespace CompleteAppointmentStrategy

/-- `CompleteAppointmentStrategy._schedule_follow_up`. The source chains
`builder.set_pet(...)` and then calls `builder.set_service_type(...)` — a
method `AppointmentBuilder` does not define (builder.py names it
`set_service`) — so Python raises `AttributeError` before any follow-up
appointment is built or saved. -/
def schedule_follow_up (_original : Appointment) (_follow_up_date : Nat)
    (db : DB) : Except (PyErr × DB) DB :=
  .error (.attributeError "AppointmentBuilder object has no attribute set_service_type", db)

/-- `CompleteAppointmentStrategy.execute`: set status `'completed'`, record
treatment notes, diagnosis and follow-up date, save, then schedule a
follow-up when `follow_up_date` is truthy. -/
def execute (appointment : Appointment) (kwargs : Kwargs) (db : DB) : StrategyResult :=
  let a := { appointment with
    status := "completed"
    treatment_notes := kwargs.treatment_notes
    diagnosis := kwargs.diagnosis
    follow_up_date := kwargs.follow_up_date }
  let sa := DjangoAppointmentRepository.save a db.appointments
  let db := { db with appointments := sa.2 }
  match kwargs.follow_up_date with
  | some d => withSaved sa.1 (schedule_follow_up sa.1 d db)
  | none => .ok (sa.1, db)

end CompleteAppointmentStrategy

namespace RescheduleStrategy

/-- `RescheduleStrategy._notify_rescheduled`. The message f-string reads
`old_datetime.strftime(...)`, `appointment.pet.name`,
`appointment.pet.owner.email` and
`appointment.veterinarian.get_full_name()`; on a `None` value Python raises
`AttributeError`. The prose of the message is abbreviated to the data it
interpolates. -/
def notify_rescheduled (appointment : Appointment) (old_datetime : Option Nat)
    (new_datetime : Nat) (reason : String) (db : DB) : Except (PyErr × DB) DB :=
  match old_datetime, appointment.pet, appointment.veterinarian with
  | some od, some p, some v =>
    .ok { db with emails := db.emails ++
      [{ subject := "Appointment Rescheduled"
         message := toString od ++ " " ++ toString new_datetime ++ " " ++ reason ++ " "
           ++ p.name ++ " " ++ v.full_name
         recipients := [p.owner.email] }] }
  | _, _, _ => .error (.attributeError "NoneType in reschedule notification", db)

/-- `RescheduleStrategy.execute`: require `new_datetime` (else `ValueError`),
assign `date_time`, `save(update_fields=['date_time'])`, then notify. -/
def execute (appointment : Appointment) (kwargs : Kwargs) (db : DB) : StrategyResult :=
  match kwargs.new_datetime with
  | none => .error (.valueError "New datetime is required for rescheduling", db)
  | some new_datetime =>
    let old_datetime := appointment.date_time
    let a := { appointment with date_time := some new_datetime }
    let sa := DjangoAppointmentRepository.save a db.appointments
    let db := { db with appointments := sa.2 }
    withSaved sa.1 (notify_rescheduled sa.1 old_datetime new_datetime kwargs.reason db)

end RescheduleStrategy

namespace CancellationStrategy

/-- `CancellationStrategy._notify_cancellation`; the message reads
`appointment.date_time.strftime(...)`, `appointment.pet` and
`appointment.veterinarian`. -/
def notify_cancellation (appointment : Appointment) (reason : String)
    (db : DB) : Except (PyErr × DB) DB :=
  match appointment.date_time, appointment.pet, appointment.veterinarian with
  | some t, some p, some v =>
    .ok { db with emails := db.emails ++
      [{ subject := "Appointment Cancelled"
         message := toString t ++ " " ++ p.name ++ " " ++ v.full_name ++ " " ++ reason
         recipients := [p.owner.email] }] }
  | _, _, _ => .error (.attributeError "NoneType in cancellation notification", db)

/-- `CancellationStrategy.execute`: set status `'cancelled'`, record the
cancellation reason, save, then notify unless `notify_client` is falsy. -/
def execute (appointment : Appointment) (kwargs : Kwargs) (db : DB) : StrategyResult :=
  let a := { appointment with status := "cancelled", cancellation_reason := kwargs.reason }
  let sa := DjangoAppointmentRepository.save a db.appointments
  let db := { db with appointments := sa.2 }
  if kwargs.notify_client then
    withSaved sa.1 (notify_cancellation sa.1 kwargs.reason db)
  else .ok (sa.1, db)

end CancellationStrategy

namespace NoShowStrategy

/-- `NoShowStrategy._notify_no_show`; the message reads
`appointment.date_time.strftime(...)`, `appointment.pet` and
`appointment.veterinarian`. (`_record_no_show` is `pass` in the source.) -/
def notify_no_show (appointment : Appointment) (db : DB) : Except (PyErr × DB) DB :=
  match appointment.date_time, appointment.pet, appointment.veterinarian with
  | some t, some p, some v =>
    .ok { db with emails := db.emails ++
      [{ subject := "Missed Appointment Notice"
         message := toString t ++ " " ++ p.name ++ " " ++ v.full_name
         recipients := [p.owner.email] }] }
  | _, _, _ => .error (.attributeError "NoneType in no-show notification", db)

/-- `NoShowStrategy.execute`: set status `'no_show'`, overwrite `notes`,
save, record (a `pass`), then notify. -/
def execute (appointment : Appointment) (kwargs : Kwargs) (db : DB) : StrategyResult :=
  let a := { appointment with status := "no_show", notes := "No-show: " ++ kwargs.notes }
  let sa := DjangoAppointmentRepository.save a db.appointments
  let db := { db with appointments := sa.2 }
  withSaved sa.1 (notify_no_show sa.1 db)

end NoShowStrategy

namespace ReferralStrategy

/-- `ReferralStrategy._notify_referral`; the message reads
`appointment.pet.name`, `appointment.pet.owner.get_full_name()` and
`appointment.date_time.strftime(...)`, and the mail goes to the new vet's
email. -/
def notify_referral (appointment : Appointment) (old_vet new_vet : AUser)
    (reason : String) (db : DB) : Except (PyErr × DB) DB :=
  match appointment.date_time, appointment.pet with
  | some t, some p =>
    .ok { db with emails := db.emails ++
      [{ subject := "Appointment Referral"
         message := old_vet.full_name ++ " " ++ p.name ++ " " ++ p.owner.full_name ++ " "
           ++ toString t ++ " " ++ reason ++ " " ++ appointment.notes
         recipients := [new_vet.email] }] }
  | _, _ => .error (.attributeError "NoneType in referral notification", db)

/-- `ReferralStrategy.execute`: require `new_vet` (else `ValueError`); read
`old_vet = appointment.veterinarian` (building the new notes calls
`old_vet.get_full_name()`, so a `None` veterinarian raises before any
write), reassign the veterinarian, rewrite `notes`, save, then notify. -/
def execute (appointment : Appointment) (kwargs : Kwargs) (db : DB) : StrategyResult :=
  match kwargs.new_vet with
  | none => .error (.valueError "New veterinarian is required for referral", db)
  | some new_vet =>
    match appointment.veterinarian with
    | none => .error (.attributeError "NoneType has no attribute get_full_name", db)
    | some old_vet =>
      let a := { appointment with
        veterinarian := some new_vet
        notes := "Referred by Dr. " ++ old_vet.full_name ++ ": " ++ kwargs.notes }
      let sa := DjangoAppointmentRepository.save a db.appointments
      let db := { db with appointments := sa.2 }
      withSaved sa.1 (notify_referral sa.1 old_vet new_vet kwargs.reason db)

end ReferralStrategy

/-! ## `appoinments/patterns/vet_patterns/factory.py` -/

namespace AppointmentComponentFactory

/-- The keys of `AppointmentComponentFactory._strategies`. -/
def strategy_names : List String :=
  ["complete", "reschedule", "cancel", "no_show", "refer"]

/-- `AppointmentComponentFactory.get_strategy`: look the action up in
`_strategies` and raise `ValueError` when absent. The returned value is the
strategy's `execute`. -/
def get_strategy (strategy_type : String) :
    Except PyErr (Appointment → Kwargs → DB → StrategyResult) :=
  if strategy_type = "complete" then .ok CompleteAppointmentStrategy.execute
  else if strategy_type = "reschedule" then .ok RescheduleStrategy.execute
  else if strategy_type = "cancel" then .ok CancellationStrategy.execute
  else if strategy_type = "no_show" then .ok NoShowStrategy.execute
  else if strategy_type = "refer" then .ok ReferralStrategy.execute
  else .error (.valueError ("Unknown strategy type: " ++ strategy_type))

end AppointmentComponentFactory

/-! ## `appoinments/patterns/vet_patterns/appointment_director.py` -/

namespace AppointmentDirector

/-- `AppointmentDirector.create_regular_checkup`: the builder chain
`set_pet → set_service('regular_checkup') → set_veterinarian → set_datetime
→ set_clinic_branch → set_notes('Regular health checkup') →
set_status('pending') → build`. -/
def create_regular_checkup (b : BuilderState) (pet : Pet) (vet : AUser)
    (clinic_branch : Nat) (date_time : Nat) : Appointment × BuilderState :=
  AppointmentBuilder.build
    (AppointmentBuilder.set_status
      (AppointmentBuilder.set_notes
        (AppointmentBuilder.set_clinic_branch
          (AppointmentBuilder.set_datetime
            (AppointmentBuilder.set_veterinarian
              (AppointmentBuilder.set_service
                (AppointmentBuilder.set_pet b pet)
                "regular_checkup")
              vet)
            date_time)
          clinic_branch)
        "Regular health checkup")
      "pending")

end AppointmentDirector

/-! ## `appoinments/patterns/vet_patterns/factory.py` — `AppointmentService` -/

namespace AppointmentService

/-- `AppointmentService.process_appointment`: fetch by id (`ValueError` when
absent), fetch the strategy (`ValueError` when unknown), execute it, then
`repository.save`. The factory's `_observers` list is initialised empty and
nothing in the repository registers an observer on it, so the final
`notify_observers` has no effect. -/
def process_appointment (db : DB) (appointment_id : Nat) (action : String)
    (kwargs : Kwargs) : StrategyResult :=
  match DjangoAppointmentRepository.get_by_id db.appointments appointment_id with
  | none => .error (.valueError ("Appointment not found: " ++ toString appointment_id), db)
  | some appointment =>
    match AppointmentComponentFactory.get_strategy action with
    | .error e => .error (e, db)
    | .ok strat =>
      match strat appointment kwargs db with
      | .error e => .error e
      | .ok (a, db) =>
        let sa := DjangoAppointmentRepository.save a db.appointments
        .ok (sa.1, { db with appointments := sa.2 })

/-- `AppointmentService.create_appointment` with
`appointment_type='regular'`: the director builds the appointment from a
fresh builder, `repository.save` inserts it, and (as above)
`notify_observers` has no registered observers. -/
def create_appointment_regular (db : DB) (pet : Pet) (vet : AUser)
    (clinic_branch : Nat) (date_time : Nat) : Appointment × DB :=
  let ab := AppointmentDirector.create_regular_checkup AppointmentBuilder.reset
    pet vet clinic_branch date_time
  let sa := DjangoAppointmentRepository.save ab.1 db.appointments
  (sa.1, { db with appointments := sa.2 })

end AppointmentService

/-! ## `appoinments/patterns/observer.py` -/

/-- A row of `appoinments.models.AppointmentNotification` as created by the
observers. -/
structure NotificationRecord where
  appointment_id : Option Nat
  notification_type : String
  message : String
  is_sent : Bool
  deriving DecidableEq

/-- The state the observers touch: emails handed to `send_mail` and the
`AppointmentNotification` table. -/
structure ObserverWorld where
  emails : List Email
  notifications : List NotificationRecord
  deriving DecidableEq

/-- `appointment.date_time` as interpolated into the observer messages.
A Python f-string renders a `None` datetime as text without raising, so
this rendering never fails; it is abbreviated via `getD 0`. (Attribute
accesses such as `veterinarian.get_full_name()` DO raise on `None` and are
matched explicitly in the updates below.) -/
def dateTimeD (a : Appointment) : Nat := a.date_time.getD 0

namespace EmailNotificationObserver

/-- `EmailNotificationObserver._get_message`: one message per status with a
default for any other status; prose abbreviated to the interpolated data.
Every entry of the eagerly built dict calls
`appointment.veterinarian.get_full_name()`, so the caller must already hold
a present veterinarian `v`. -/
def get_message (a : Appointment) (v : AUser) : String :=
  if a.status = "confirmed" then
    "confirmed " ++ v.full_name ++ " " ++ toString (dateTimeD a)
  else if a.status = "cancelled" then
    "cancelled " ++ v.full_name ++ " " ++ toString (dateTimeD a)
  else if a.status = "completed" then
    "completed " ++ v.full_name
  else if a.status = "pending" then
    "pending " ++ v.full_name ++ " " ++ toString (dateTimeD a)
  else "Your appointment status has been updated."

/-- `EmailNotificationObserver.update`, in source order: the subject, then
`_get_message` — whose dict f-strings all call
`appointment.veterinarian.get_full_name()` eagerly, raising
`AttributeError` on a `None` veterinarian before any effect — then
`recipient_list = [appointment.pet.owner.email]` — raising on a `None` pet,
still before any effect — then one `send_mail` and one
`AppointmentNotification.objects.create` with type `'confirmation'` when
the status is `'confirmed'`, else `'update'`, and `is_sent=True`.
(`.title()` on the subject is kept as the raw status.) An error carries the
world at the point of the raise. -/
def update (a : Appointment) (w : ObserverWorld) :
    Except (PyErr × ObserverWorld) ObserverWorld :=
  match a.veterinarian with
  | none => .error (.attributeError "NoneType has no attribute get_full_name", w)
  | some v =>
    let message := get_message a v
    match a.pet with
    | none => .error (.attributeError "NoneType has no attribute owner", w)
    | some p =>
      .ok { emails := w.emails ++
              [{ subject := "Appointment Update - " ++ a.status
                 message := message
                 recipients := [p.owner.email] }]
            notifications := w.notifications ++
              [{ appointment_id := a.id
                 notification_type :=
                   if a.status = "confirmed" then "confirmation" else "update"
                 message := message
                 is_sent := true }] }

end EmailNotificationObserver

namespace ReminderObserver

/-- `ReminderObserver.update`, in source order: a no-op unless the status
is `'confirmed'`; then the message f-string calls
`veterinarian.get_full_name()` and `date_time.strftime(...)`, raising
`AttributeError` on a `None` value before any effect; then the
`AppointmentNotification` row of type `'reminder'` is created, and only
then `send_mail` reads `appointment.pet.owner.email` — so a `None` pet
raises after the row was stored. -/
def update (a : Appointment) (w : ObserverWorld) :
    Except (PyErr × ObserverWorld) ObserverWorld :=
  if a.status ≠ "confirmed" then .ok w
  else
    match a.veterinarian, a.date_time with
    | some v, some t =>
      let message := "Reminder " ++ v.full_name ++ " " ++ toString t
      let w := { w with notifications := w.notifications ++
        [{ appointment_id := a.id
           notification_type := "reminder"
           message := message
           is_sent := true }] }
      match a.pet with
      | none => .error (.attributeError "NoneType has no attribute owner", w)
      | some p =>
        .ok { w with emails := w.emails ++
          [{ subject := "Appointment Reminder"
             message := message
             recipients := [p.owner.email] }] }
    | _, _ => .error (.attributeError "NoneType in reminder message", w)

end ReminderObserver

/-- The concrete observer classes of `observer.py`. -/
inductive ObserverKind where
  | emailNotification
  | reminder
  deriving DecidableEq

/-- Dispatch `observer.update(appointment)`. -/
def ObserverKind.update :
    ObserverKind → Appointment → ObserverWorld →
      Except (PyErr × ObserverWorld) ObserverWorld
  | .emailNotification, a, w => EmailNotificationObserver.update a w
  | .reminder, a, w => ReminderObserver.update a w

namespace AppointmentSubject

/-- `AppointmentSubject.attach`: append unless already attached. -/
def attach (observers : List ObserverKind) (o : ObserverKind) : List ObserverKind :=
  if o ∈ observers then observers else observers ++ [o]

/-- `AppointmentSubject.notify`: the `for observer in cls._observers` loop —
each attached observer's `update` runs in list (attachment) order, and an
exception escaping one observer aborts the loop, carrying the world at the
raise. -/
def notify (observers : List ObserverKind) (a : Appointment)
    (w : ObserverWorld) : Except (PyErr × ObserverWorld) ObserverWorld :=
  match observers with
  | [] => .ok w
  | o :: os =>
    match o.update a w with
    | .error e => .error e
    | .ok w' => notify os a w'

end AppointmentSubject

/-! ## Concrete sample data used by witnesses and counterexamples -/

/-- A sample veterinarian. -/
def sampleVet : AUser := { id := 1, email := "vet@example.com", full_name := "Ada Vet" }

/-- A sample pet owner. -/
def sampleOwner : AUser := { id := 2, email := "owner@example.com", full_name := "Omar Owner" }

/-- A sample pet. -/
def samplePet : Pet := { name := "Rex", owner := sampleOwner }

/-- A stored, confirmed appointment of `sampleVet` at 9:00 of day 0. -/
def sampleConfirmed : Appointment :=
  { id := some 1, pet := some samplePet, service_type := some "regular_checkup"
    veterinarian := some sampleVet, date_time := some 540, clinic_branch := some 1
    notes := "", status := "confirmed" }

/-- A store holding only `sampleConfirmed`. -/
def dbOne : DB := { appointments := [sampleConfirmed], emails := [] }

/-- A stored appointment of `sampleVet` at 8:15 of day 0 (minute 495). -/
def sampleAt815 : Appointment :=
  { id := some 2, pet := some samplePet, service_type := some "regular_checkup"
    veterinarian := some sampleVet, date_time := some 495, clinic_branch := some 1
    notes := "", status := "pending" }

/-- An empty observer world. -/
def emptyWorld : ObserverWorld := { emails := [], notifications := [] }

/-- A sample user row with the veterinarian role. -/
def sampleVetRow : CustomUserRow :=
  { username := "ada", phone := "555", address := "1 Main St", role := "vet" }

/-! ## Theorems -/

/-- Membership in the 9:00–17:00 scan: exactly the grid points whose slot
fits before `end_time` and overlaps no existing appointment interval. -/
theorem mem_slotLoop {duration end_time : Nat} (existing : List Nat)
    (hd : 0 < duration) (current t : Nat) :
    t ∈ AppointmentRepository.slotLoop duration end_time existing current ↔
      ((∃ k, t = current + k * duration) ∧ t + duration ≤ end_time ∧
        ∀ x ∈ existing, ¬(t < x + duration ∧ t + duration > x)) := by
  suffices h : ∀ n current, end_time - current ≤ n → ∀ t,
      (t ∈ AppointmentRepository.slotLoop duration end_time existing current ↔
        ((∃ k, t = current + k * duration) ∧ t + duration ≤ end_time ∧
          ∀ x ∈ existing, ¬(t < x + duration ∧ t + duration > x))) by
    exact h (end_time - current) current le_rfl t
  intro n
  induction n with
  | zero =>
    intro current hn t
    rw [AppointmentRepository.slotLoop, dif_neg (by omega)]
    refine iff_of_false (List.not_mem_nil t) ?_
    rintro ⟨⟨k, hk⟩, h2, -⟩
    have hct : current ≤ t := by rw [hk]; exact Nat.le_add_right _ _
    omega
  | succ n ih =>
    intro current hn t
    rw [AppointmentRepository.slotLoop]
    by_cases hc : current + duration ≤ end_time
    case neg =>
      rw [dif_neg (by omega)]
      refine iff_of_false (List.not_mem_nil t) ?_
      rintro ⟨⟨k, hk⟩, h2, -⟩
      have hct : current ≤ t := by rw [hk]; exact Nat.le_add_right _ _
      omega
    case pos =>
      rw [dif_pos ⟨hd, hc⟩]
      have ih' := ih (current + duration) (by omega) t
      rw [List.mem_append, ih']
      by_cases hav : ∀ x ∈ existing, ¬(current < x + duration ∧ current + duration > x)
      · rw [if_pos hav]
        simp only [List.mem_singleton]
        constructor
        · rintro (rfl | ⟨⟨k, hk⟩, h2, h3⟩)
          · exact ⟨⟨0, by ring⟩, hc, hav⟩
          · exact ⟨⟨k + 1, by rw [hk]; ring⟩, h2, h3⟩
        · rintro ⟨⟨k, hk⟩, h2, h3⟩
          cases k with
          | zero =>
            left
            simpa using hk
          | succ k =>
            right
            refine ⟨⟨k, by rw [hk, Nat.succ_mul]; ring⟩, h2, h3⟩
      · rw [if_neg hav]
        simp only [List.not_mem_nil, false_or]
        constructor
        · rintro ⟨⟨k, hk⟩, h2, h3⟩
          exact ⟨⟨k + 1, by rw [hk]; ring⟩, h2, h3⟩
        · rintro ⟨⟨k, hk⟩, h2, h3⟩
          cases k with
          | zero =>
            exfalso
            apply hav
            have ht : t = current := by simpa using hk
            rw [ht] at h3
            exact h3
          | succ k =>
            refine ⟨⟨k, by rw [hk, Nat.succ_mul]; ring⟩, h2, h3⟩

/-- The scan yields strictly increasing start times. -/
theorem slotLoop_sorted (duration end_time : Nat) (existing : List Nat)
    (hd : 0 < duration) (current : Nat) :
    (AppointmentRepository.slotLoop duration end_time existing current).Sorted (· < ·) := by
  suffices h : ∀ n current, end_time - current ≤ n →
      (AppointmentRepository.slotLoop duration end_time existing current).Sorted (· < ·) by
    exact h (end_time - current) current le_rfl
  intro n
  induction n with
  | zero =>
    intro current hn
    rw [AppointmentRepository.slotLoop, dif_neg (by omega)]
    exact List.sorted_nil
  | succ n ih =>
    intro current hn
    rw [AppointmentRepository.slotLoop]
    by_cases hc : current + duration ≤ end_time
    case neg =>
      rw [dif_neg (by omega)]
      exact List.sorted_nil
    case pos =>
      rw [dif_pos ⟨hd, hc⟩]
      have hrec := ih (current + duration) (by omega)
      have hgt : ∀ b ∈ AppointmentRepository.slotLoop duration end_time existing
          (current + duration), current < b := by
        intro b hb
        obtain ⟨⟨k, hk⟩, -, -⟩ :=
          (mem_slotLoop existing hd (current + duration) b).mp hb
        have : current + duration ≤ b := by rw [hk]; exact Nat.le_add_right _ _
        omega
      by_cases hav : ∀ x ∈ existing, ¬(current < x + duration ∧ current + duration > x)
      · rw [if_pos hav]
        rw [List.singleton_append, List.sorted_cons]
        exact ⟨hgt, hrec⟩
      · rw [if_neg hav]
        rw [List.nil_append]
        exact hrec

/-- C1: `AppointmentRepository.get_available_slots` returns exactly the
start times `9:00 + k·d` whose slot `[t, t+d)` ends by 17:00 and overlaps
no interval `[a.date_time, a.date_time + d)` of a confirmed appointment of
that veterinarian on that date, in increasing time order. -/
theorem availableSlots_exactly_nonoverlapping_grid (vet : AUser) (date : Nat)
    (db : List Appointment) (d : Nat) (hd : 0 < d) :
    (∀ t, t ∈ AppointmentRepository.get_available_slots vet date db d ↔
      ((∃ k, t = date * 1440 + 540 + k * d) ∧ t + d ≤ date * 1440 + 1020 ∧
        ∀ a ∈ db, a.veterinarian = some vet → a.status = "confirmed" →
          ∀ ta, a.date_time = some ta → dateOf ta = date →
            ¬(t < ta + d ∧ t + d > ta))) ∧
    (AppointmentRepository.get_available_slots vet date db d).Sorted (· < ·) := by
  have hrepr : AppointmentRepository.get_available_slots vet date db d =
      AppointmentRepository.slotLoop d (date * 1440 + 17 * 60)
        ((db.filter fun a =>
          a.veterinarian == some vet &&
          a.date_time.any (fun t => dateOf t == date) &&
          a.status == "confirmed").filterMap fun a => a.date_time)
        (date * 1440 + 9 * 60) := rfl
  constructor
  · intro t
    rw [hrepr, mem_slotLoop _ hd]
    have hnum9 : date * 1440 + 9 * 60 = date * 1440 + 540 := by norm_num
    have hnum17 : date * 1440 + 17 * 60 = date * 1440 + 1020 := by norm_num
    rw [hnum9, hnum17]
    refine and_congr_right fun _ => and_congr_right fun _ => ?_
    constructor
    · intro h a ha hv hs ta hta hdate
      refine h ta (List.mem_filterMap.mpr ⟨a, List.mem_filter.mpr ⟨ha, ?_⟩, hta⟩)
      simp [hv, hs, hta, hdate]
    · intro h x hx
      obtain ⟨a, haf, hdt⟩ := List.mem_filterMap.mp hx
      obtain ⟨ha, hb⟩ := List.mem_filter.mp haf
      simp only [Bool.and_eq_true, beq_iff_eq] at hb
      obtain ⟨⟨hv, hany⟩, hs⟩ := hb
      rw [hdt] at hany
      exact h a ha hv hs x hdt (by simpa using hany)
  · rw [hrepr]
    exact slotLoop_sorted _ _ _ hd _

/-- Witness: the C1 characterisation evaluated for `sampleVet` on day 0
with one confirmed appointment at 9:00 and a 30-minute duration. -/
theorem availableSlots_exactly_nonoverlapping_grid_witness :
    (∀ t, t ∈ AppointmentRepository.get_available_slots sampleVet 0 [sampleConfirmed] 30 ↔
      ((∃ k, t = 0 * 1440 + 540 + k * 30) ∧ t + 30 ≤ 0 * 1440 + 1020 ∧
        ∀ a ∈ [sampleConfirmed], a.veterinarian = some sampleVet → a.status = "confirmed" →
          ∀ ta, a.date_time = some ta → dateOf ta = 0 →
            ¬(t < ta + 30 ∧ t + 30 > ta))) ∧
    (AppointmentRepository.get_available_slots sampleVet 0 [sampleConfirmed] 30).Sorted (· < ·) :=
  availableSlots_exactly_nonoverlapping_grid sampleVet 0 [sampleConfirmed] 30 (by decide)

/-- Membership in the 8:00–18:00 scan of
`DjangoAppointmentRepository.get_available_slots`: exactly the 30-minute
grid points before `day_end` whose start time is not an existing
appointment's start time. -/
theorem mem_djSlotLoop (day_end : Nat) (existing : List Nat) (current t : Nat) :
    t ∈ DjangoAppointmentRepository.djSlotLoop day_end existing current ↔
      ((∃ k, t = current + k * 30) ∧ t < day_end ∧ t ∉ existing) := by
  suffices h : ∀ n current, day_end - current ≤ n → ∀ t,
      (t ∈ DjangoAppointmentRepository.djSlotLoop day_end existing current ↔
        ((∃ k, t = current + k * 30) ∧ t < day_end ∧ t ∉ existing)) by
    exact h (day_end - current) current le_rfl t
  intro n
  induction n with
  | zero =>
    intro current hn t
    rw [DjangoAppointmentRepository.djSlotLoop, dif_neg (by omega)]
    refine iff_of_false (List.not_mem_nil t) ?_
    rintro ⟨⟨k, hk⟩, h2, -⟩
    have hct : current ≤ t := by rw [hk]; exact Nat.le_add_right _ _
    omega
  | succ n ih =>
    intro current hn t
    rw [DjangoAppointmentRepository.djSlotLoop]
    by_cases hc : current < day_end
    case neg =>
      rw [dif_neg hc]
      refine iff_of_false (List.not_mem_nil t) ?_
      rintro ⟨⟨k, hk⟩, h2, -⟩
      have hct : current ≤ t := by rw [hk]; exact Nat.le_add_right _ _
      omega
    case pos =>
      rw [dif_pos hc]
      have ih' := ih (current + 30) (by omega) t
      rw [List.mem_append, ih']
      by_cases hmem : current ∈ existing
      · rw [if_pos hmem]
        simp only [List.not_mem_nil, false_or]
        constructor
        · rintro ⟨⟨k, hk⟩, h2, h3⟩
          exact ⟨⟨k + 1, by rw [hk]; ring⟩, h2, h3⟩
        · rintro ⟨⟨k, hk⟩, h2, h3⟩
          cases k with
          | zero =>
            exfalso
            have ht : t = current := by simpa using hk
            rw [ht] at h3
            exact h3 hmem
          | succ k =>
            refine ⟨⟨k, by rw [hk, Nat.succ_mul]; ring⟩, h2, h3⟩
      · rw [if_neg hmem]
        simp only [List.mem_singleton]
        constructor
        · rintro (rfl | ⟨⟨k, hk⟩, h2, h3⟩)
          · exact ⟨⟨0, by ring⟩, hc, hmem⟩
          · exact ⟨⟨k + 1, by rw [hk]; ring⟩, h2, h3⟩
        · rintro ⟨⟨k, hk⟩, h2, h3⟩
          cases k with
          | zero =>
            left
            simpa using hk
          | succ k =>
            right
            refine ⟨⟨k, by rw [hk, Nat.succ_mul]; ring⟩, h2, h3⟩

/-- Counterexample to C2: with one stored appointment of veterinarian 1 at
8:15 (minute 495) of day 0 — inside the 8:00–18:00 window — the 8:00 slot
(minute 480) has interval `[480, 510)` overlapping the appointment's
interval `[495, 525)`, yet `DjangoAppointmentRepository.get_available_slots`
still returns 480: the slot is only dropped on exact start-time equality,
not on interval overlap. -/
theorem dj_availableSlots_overlap_not_excluded :
    sampleAt815.veterinarian = some sampleVet ∧ sampleVet.id = 1 ∧
    sampleAt815.date_time = some 495 ∧
    (480 ≤ 495 ∧ (495 : Nat) ≤ 1080) ∧
    (480 < 495 + 30 ∧ 480 + 30 > 495) ∧
    480 ∈ DjangoAppointmentRepository.get_available_slots 1 0 [sampleAt815] := by
  refine ⟨rfl, rfl, rfl, by norm_num, by norm_num, ?_⟩
  rw [show DjangoAppointmentRepository.get_available_slots 1 0 [sampleAt815] =
      DjangoAppointmentRepository.djSlotLoop 1080 [495] 480 from rfl,
    mem_djSlotLoop]
  exact ⟨⟨0, by norm_num⟩, by norm_num, by decide⟩

/-- C2 as amended: `DjangoAppointmentRepository.get_available_slots`
excludes a 30-minute grid slot precisely when its exact start time equals
the `date_time` of an existing appointment of that veterinarian within the
inclusive 8:00–18:00 window (not when intervals merely overlap). -/
theorem dj_availableSlots_exactly_start_time_misses (vet_id : Nat) (date : Nat)
    (db : List Appointment) :
    ∀ t, t ∈ DjangoAppointmentRepository.get_available_slots vet_id date db ↔
      ((∃ k, t = dateOf date * 1440 + 480 + k * 30) ∧
        t < dateOf date * 1440 + 1080 ∧
        ¬∃ a ∈ db, (∃ v, a.veterinarian = some v ∧ v.id = vet_id) ∧
          a.date_time = some t ∧
          dateOf date * 1440 + 480 ≤ t ∧ t ≤ dateOf date * 1440 + 1080) := by
  intro t
  have hrepr : DjangoAppointmentRepository.get_available_slots vet_id date db =
      DjangoAppointmentRepository.djSlotLoop (dateOf date * 1440 + 18 * 60)
        (List.filterMap (fun a => a.date_time)
          (db.filter fun a =>
            a.veterinarian.any (fun v => v.id == vet_id) &&
            a.date_time.any (fun x =>
              decide (dateOf date * 1440 + 8 * 60 ≤ x) &&
              decide (x ≤ dateOf date * 1440 + 18 * 60))))
        (dateOf date * 1440 + 8 * 60) := rfl
  rw [hrepr, mem_djSlotLoop]
  have hnum8 : dateOf date * 1440 + 8 * 60 = dateOf date * 1440 + 480 := by norm_num
  have hnum18 : dateOf date * 1440 + 18 * 60 = dateOf date * 1440 + 1080 := by norm_num
  rw [hnum8, hnum18]
  refine and_congr_right fun _ => and_congr_right fun _ => not_congr ?_
  constructor
  · intro hx
    obtain ⟨a, haf, hdt⟩ := List.mem_filterMap.mp hx
    obtain ⟨ha, hb⟩ := List.mem_filter.mp haf
    simp only [Bool.and_eq_true] at hb
    obtain ⟨hvet, hwin⟩ := hb
    rw [hdt] at hwin
    simp only [Option.any_some, Bool.and_eq_true, decide_eq_true_eq] at hwin
    obtain ⟨v, hv⟩ : ∃ v, a.veterinarian = some v ∧ v.id = vet_id := by
      cases hav : a.veterinarian with
      | none => rw [hav] at hvet; simp [Option.any] at hvet
      | some v =>
        rw [hav] at hvet
        exact ⟨v, rfl, by simpa using hvet⟩
    refine ⟨a, ha, ⟨v, hv⟩, hdt, ?_, ?_⟩
    · rw [hnum8] at hwin; exact hwin.1
    · rw [hnum18] at hwin; exact hwin.2
  · rintro ⟨a, ha, ⟨v, hv, hvid⟩, hdt, hlo, hhi⟩
    refine List.mem_filterMap.mpr ⟨a, List.mem_filter.mpr ⟨ha, ?_⟩, hdt⟩
    simp only [Bool.and_eq_true]
    refine ⟨by simp [hv, hvid], ?_⟩
    rw [hdt]
    simp only [Option.any_some, Bool.and_eq_true, decide_eq_true_eq]
    rw [hnum8, hnum18]
    exact ⟨hlo, hhi⟩

/-- C8: the declared role choices are exactly admin/vet/staff/client with
default `'client'`, and for a role in that set exactly one of the four role
predicates returns true. (The `choices=` option is declarative: it does not
stop a programmatic save from storing another string, which is why the
exactly-one statement is conditioned on membership.) -/
theorem roles_exhaustive_and_exclusive (u : CustomUserRow)
    (h : u.role ∈ CustomUser.ROLE_CHOICES.map Prod.fst) :
    CustomUser.ROLE_CHOICES.map Prod.fst = ["admin", "vet", "staff", "client"] ∧
    CustomUser.default_role = "client" ∧
    [CustomUser.is_admin u, CustomUser.is_vet u, CustomUser.is_staff_member u,
      CustomUser.is_client u].count true = 1 := by
  refine ⟨rfl, rfl, ?_⟩
  have h' : u.role = "admin" ∨ u.role = "vet" ∨ u.role = "staff" ∨ u.role = "client" := by
    simpa [CustomUser.ROLE_CHOICES] using h
  rcases h' with h' | h' | h' | h' <;>
    simp [CustomUser.is_admin, CustomUser.is_vet, CustomUser.is_staff_member,
      CustomUser.is_client, h', List.count_cons]

/-- Witness: C8 evaluated at a user with role `'vet'`. -/
theorem roles_exhaustive_and_exclusive_witness :
    CustomUser.ROLE_CHOICES.map Prod.fst = ["admin", "vet", "staff", "client"] ∧
    CustomUser.default_role = "client" ∧
    [CustomUser.is_admin sampleVetRow, CustomUser.is_vet sampleVetRow,
      CustomUser.is_staff_member sampleVetRow,
      CustomUser.is_client sampleVetRow].count true = 1 :=
  roles_exhaustive_and_exclusive sampleVetRow (by decide)

/-- C10: `build` resets the builder — after any sequence of setter calls
followed by `build()`, a second `build()` with no intervening setters
yields an appointment with every builder-controlled field at its default
(`None`/empty notes/status `'pending'`) — and each setter only overwrites
its own field and returns the builder. -/
theorem builder_build_resets (b : BuilderState) (cs : List SetterCall) :
    (AppointmentBuilder.build (AppointmentBuilder.build (applyCalls b cs)).2).1 =
      { id := none, pet := none, service_type := none, veterinarian := none
        date_time := none, clinic_branch := none, notes := "", status := "pending" } ∧
    (∀ b' p, AppointmentBuilder.set_pet b' p = { b' with pet := some p }) ∧
    (∀ b' s, AppointmentBuilder.set_service b' s = { b' with service_type := some s }) ∧
    (∀ b' v, AppointmentBuilder.set_veterinarian b' v = { b' with veterinarian := some v }) ∧
    (∀ b' t, AppointmentBuilder.set_datetime b' t = { b' with date_time := some t }) ∧
    (∀ b' c, AppointmentBuilder.set_clinic_branch b' c = { b' with clinic_branch := some c }) ∧
    (∀ b' n, AppointmentBuilder.set_notes b' n = { b' with notes := n }) ∧
    (∀ b' s, AppointmentBuilder.set_status b' s = { b' with status := s }) :=
  ⟨rfl, fun _ _ => rfl, fun _ _ => rfl, fun _ _ => rfl, fun _ _ => rfl,
    fun _ _ => rfl, fun _ _ => rfl, fun _ _ => rfl⟩

/-- C9: `DjangoAppointmentRepository` reports absence without raising —
for an id with no matching appointment `get_by_id` is `None` and
`delete`/`update_status` return `False` leaving the store unchanged; for an
existing id (primary keys unique), `delete` returns `True` and removes
exactly that appointment, and `update_status` returns `True` and changes
only its status field. -/
theorem repo_absence_and_presence (db : List Appointment) (i : Nat) :
    ((∀ a ∈ db, a.id ≠ some i) →
      DjangoAppointmentRepository.get_by_id db i = none ∧
      DjangoAppointmentRepository.delete db i = (false, db) ∧
      ∀ s, DjangoAppointmentRepository.update_status db i s = (false, db)) ∧
    ((db.map (fun a => a.id)).Nodup → ∀ a ∈ db, a.id = some i →
      ((DjangoAppointmentRepository.delete db i).1 = true ∧
        ∀ b, b ∈ (DjangoAppointmentRepository.delete db i).2 ↔
          (b ∈ db ∧ b.id ≠ some i)) ∧
      ∀ s, (DjangoAppointmentRepository.update_status db i s).1 = true ∧
        (DjangoAppointmentRepository.update_status db i s).2 =
          db.map (fun b => if b.id = some i then { b with status := s } else b)) := by
  constructor
  · intro h
    have hf : db.find? (fun a => a.id == some i) = none :=
      List.find?_eq_none.mpr (fun a ha => by simpa using h a ha)
    refine ⟨hf, ?_, fun s => ?_⟩
    · simp [DjangoAppointmentRepository.delete, hf]
    · simp [DjangoAppointmentRepository.update_status, hf]
  · intro hN a ha hai
    have hinj := List.inj_on_of_nodup_map hN
    have hsome : (db.find? (fun x => x.id == some i)).isSome :=
      List.find?_isSome.mpr ⟨a, ha, by simpa using hai⟩
    obtain ⟨a', hfind⟩ := Option.isSome_iff_exists.mp hsome
    have ha' : a' ∈ db := List.mem_of_find?_eq_some hfind
    have hai' : a'.id = some i := by simpa using List.find?_some hfind
    constructor
    · constructor
      · simp [DjangoAppointmentRepository.delete, hfind]
      · intro b
        have hres : (DjangoAppointmentRepository.delete db i).2 =
            db.eraseP (fun x => x.id == some i) := by
          simp [DjangoAppointmentRepository.delete, hfind]
        rw [hres]
        constructor
        · intro hb
          have hbdb : b ∈ db := List.eraseP_subset _ hb
          refine ⟨hbdb, fun hbid => ?_⟩
          obtain ⟨c, l₁, l₂, hl₁, hc, hdecomp, herase⟩ :=
            List.exists_of_eraseP (p := fun x => x.id == some i) ha'
              (by simp [hai'])
          rw [herase] at hb
          have hcid : c.id = some i := by simpa using hc
          rcases List.mem_append.mp hb with hb₁ | hb₂
          · exact hl₁ b hb₁ (by simpa using hbid)
          · rw [hdecomp, List.map_append, List.map_cons] at hN
            have hnotmem := (List.nodup_cons.mp (List.nodup_append.mp hN).2.1).1
            apply hnotmem
            rw [hcid, ← hbid]
            exact List.mem_map_of_mem (fun x => x.id) hb₂
        · rintro ⟨hbdb, hbid⟩
          exact (List.mem_eraseP_of_neg (by simpa using hbid)).mpr hbdb
    · intro s
      have hres : DjangoAppointmentRepository.update_status db i s =
          (true, (DjangoAppointmentRepository.save { a' with status := s } db).2) := by
        simp [DjangoAppointmentRepository.update_status, hfind]
      rw [hres]
      refine ⟨rfl, ?_⟩
      have hsave : (DjangoAppointmentRepository.save { a' with status := s } db).2 =
          db.map (fun b => if b.id = some i then { a' with status := s } else b) := by
        simp only [DjangoAppointmentRepository.save, hai']
      rw [hsave]
      refine List.map_congr_left fun b hb => ?_
      by_cases hbid : b.id = some i
      · rw [if_pos hbid, if_pos hbid]
        have : b = a' := hinj hb ha' (by rw [hbid, hai'])
        rw [this]
      · rw [if_neg hbid, if_neg hbid]

/-- Witness: C9 evaluated on the singleton store `[sampleConfirmed]`, with
every hypothesis discharged — absence at id 7, and presence at id 1, where
the delete and status-update behaviour is exercised concretely. -/
theorem repo_absence_and_presence_witness :
    (DjangoAppointmentRepository.get_by_id [sampleConfirmed] 7 = none ∧
     DjangoAppointmentRepository.delete [sampleConfirmed] 7 = (false, [sampleConfirmed]) ∧
     ∀ s, DjangoAppointmentRepository.update_status [sampleConfirmed] 7 s =
       (false, [sampleConfirmed])) ∧
    (((DjangoAppointmentRepository.delete [sampleConfirmed] 1).1 = true ∧
      ∀ b, b ∈ (DjangoAppointmentRepository.delete [sampleConfirmed] 1).2 ↔
        (b ∈ [sampleConfirmed] ∧ b.id ≠ some 1)) ∧
     ∀ s, (DjangoAppointmentRepository.update_status [sampleConfirmed] 1 s).1 = true ∧
       (DjangoAppointmentRepository.update_status [sampleConfirmed] 1 s).2 =
         [sampleConfirmed].map
           (fun b => if b.id = some 1 then { b with status := s } else b)) :=
  ⟨(repo_absence_and_presence [sampleConfirmed] 7).1 (by decide),
   (repo_absence_and_presence [sampleConfirmed] 1).2 (by decide) sampleConfirmed
     (List.mem_singleton.mpr rfl) rfl⟩

/-- Fetching by id pins the result's primary key. -/
theorem get_by_id_id (db : List Appointment) (i : Nat) (a : Appointment)
    (h : DjangoAppointmentRepository.get_by_id db i = some a) : a.id = some i := by
  simpa using List.find?_some h

/-- `withSaved` propagates only the exception of its call. -/
theorem withSaved_ne_valueError (s : Appointment) (r : Except (PyErr × DB) DB)
    (hr : ∀ msg db', r ≠ .error (.valueError msg, db')) :
    ∀ msg db', withSaved s r ≠ .error (.valueError msg, db') := by
  intro msg db'
  unfold withSaved
  cases r with
  | error e =>
    intro h
    injection h with h'
    exact hr msg db' (by rw [h'])
  | ok d => simp

/-- `CompleteAppointmentStrategy.execute` never raises `ValueError`. -/
theorem complete_execute_no_valueError (a : Appointment) (k : Kwargs) (db : DB) :
    ∀ msg db', CompleteAppointmentStrategy.execute a k db ≠
      .error (.valueError msg, db') := by
  unfold CompleteAppointmentStrategy.execute
  cases hfu : k.follow_up_date with
  | none => simp [hfu]
  | some d =>
    simp only [hfu]
    refine withSaved_ne_valueError _ _ ?_
    intro msg db'
    unfold CompleteAppointmentStrategy.schedule_follow_up
    simp

/-- `RescheduleStrategy.execute` raises `ValueError` — with the state
untouched — exactly when `new_datetime` is missing. -/
theorem reschedule_execute_valueError (a : Appointment) (k : Kwargs) (db : DB) :
    (k.new_datetime = none →
      RescheduleStrategy.execute a k db =
        .error (.valueError "New datetime is required for rescheduling", db)) ∧
    (∀ t, k.new_datetime = some t → ∀ msg db',
      RescheduleStrategy.execute a k db ≠ .error (.valueError msg, db')) := by
  constructor
  · intro h
    unfold RescheduleStrategy.execute
    rw [h]
  · intro t ht
    unfold RescheduleStrategy.execute
    simp only [ht]
    refine withSaved_ne_valueError _ _ ?_
    intro msg db'
    unfold RescheduleStrategy.notify_rescheduled
    split <;> simp

/-- `CancellationStrategy.execute` never raises `ValueError`. -/
theorem cancel_execute_no_valueError (a : Appointment) (k : Kwargs) (db : DB) :
    ∀ msg db', CancellationStrategy.execute a k db ≠
      .error (.valueError msg, db') := by
  unfold CancellationStrategy.execute
  by_cases hnc : k.notify_client
  · simp only [hnc, if_true]
    refine withSaved_ne_valueError _ _ ?_
    intro msg db'
    unfold CancellationStrategy.notify_cancellation
    split <;> simp
  · simp [hnc]

/-- `NoShowStrategy.execute` never raises `ValueError`. -/
theorem no_show_execute_no_valueError (a : Appointment) (k : Kwargs) (db : DB) :
    ∀ msg db', NoShowStrategy.execute a k db ≠
      .error (.valueError msg, db') := by
  unfold NoShowStrategy.execute
  refine withSaved_ne_valueError _ _ ?_
  intro msg db'
  unfold NoShowStrategy.notify_no_show
  split <;> simp

/-- `ReferralStrategy.execute` raises `ValueError` — with the state
untouched — exactly when `new_vet` is missing. -/
theorem refer_execute_valueError (a : Appointment) (k : Kwargs) (db : DB) :
    (k.new_vet = none →
      ReferralStrategy.execute a k db =
        .error (.valueError "New veterinarian is required for referral", db)) ∧
    (∀ v, k.new_vet = some v → ∀ msg db',
      ReferralStrategy.execute a k db ≠ .error (.valueError msg, db')) := by
  constructor
  · intro h
    unfold ReferralStrategy.execute
    rw [h]
  · intro v hv
    unfold ReferralStrategy.execute
    simp only [hv]
    cases hov : a.veterinarian with
    | none => simp
    | some oldv =>
      refine withSaved_ne_valueError _ _ ?_
      intro msg db'
      unfold ReferralStrategy.notify_referral
      split <;> simp

/-- `process_appointment` propagates a strategy's `ValueError` unchanged and
produces none of its own once the id and action have resolved. -/
theorem process_propagates (db : DB) (i : Nat) (action : String) (k : Kwargs)
    (a : Appointment) (strat : Appointment → Kwargs → DB → StrategyResult)
    (hg : DjangoAppointmentRepository.get_by_id db.appointments i = some a)
    (hs : AppointmentComponentFactory.get_strategy action = .ok strat)
    (msg : String) (db' : DB) :
    (AppointmentService.process_appointment db i action k =
        .error (.valueError msg, db')) ↔
      strat a k db = .error (.valueError msg, db') := by
  unfold AppointmentService.process_appointment
  simp only [hg, hs]
  cases hres : strat a k db with
  | error e => simp
  | ok p =>
    obtain ⟨a2, db2⟩ := p
    simp

/-- C5 as amended: `process_appointment` raises `ValueError` — always with
the store unchanged — exactly when the id is missing, or the action is not
one of the five strategy names, or a dispatched strategy's required
argument is missing (`'reschedule'` without `new_datetime`, `'refer'`
without `new_vet`); for the five names it dispatches the corresponding
strategy, whose other exits are normal returns or `AttributeError`. -/
theorem process_valueError_characterisation (db : DB) (i : Nat)
    (action : String) (k : Kwargs) :
    ((∃ msg, AppointmentService.process_appointment db i action k =
        .error (.valueError msg, db)) ↔
      (DjangoAppointmentRepository.get_by_id db.appointments i = none ∨
       action ∉ AppointmentComponentFactory.strategy_names ∨
       (action = "reschedule" ∧ k.new_datetime = none) ∨
       (action = "refer" ∧ k.new_vet = none))) ∧
    (∀ msg db', AppointmentService.process_appointment db i action k =
        .error (.valueError msg, db') → db' = db) := by
  cases hg : DjangoAppointmentRepository.get_by_id db.appointments i with
  | none =>
    have hres : AppointmentService.process_appointment db i action k =
        .error (.valueError ("Appointment not found: " ++ toString i), db) := by
      unfold AppointmentService.process_appointment
      simp only [hg]
    refine ⟨⟨fun _ => Or.inl rfl, fun _ => ⟨_, hres⟩⟩, ?_⟩
    intro msg db' h
    rw [hres] at h
    simp only [Except.error.injEq, Prod.mk.injEq, PyErr.valueError.injEq] at h
    exact h.2.symm
  | some a =>
    by_cases hmem : action ∈ AppointmentComponentFactory.strategy_names
    case neg =>
      have hne : ¬(action = "complete" ∨ action = "reschedule" ∨ action = "cancel" ∨
          action = "no_show" ∨ action = "refer") := by
        simpa [AppointmentComponentFactory.strategy_names] using hmem
      push_neg at hne
      obtain ⟨h1, h2, h3, h4, h5⟩ := hne
      have hstrat : AppointmentComponentFactory.get_strategy action =
          .error (.valueError ("Unknown strategy type: " ++ action)) := by
        unfold AppointmentComponentFactory.get_strategy
        rw [if_neg h1, if_neg h2, if_neg h3, if_neg h4, if_neg h5]
      have hres : AppointmentService.process_appointment db i action k =
          .error (.valueError ("Unknown strategy type: " ++ action), db) := by
        unfold AppointmentService.process_appointment
        simp only [hg, hstrat]
      refine ⟨⟨fun _ => Or.inr (Or.inl hmem), fun _ => ⟨_, hres⟩⟩, ?_⟩
      intro msg db' h
      rw [hres] at h
      simp only [Except.error.injEq, Prod.mk.injEq, PyErr.valueError.injEq] at h
      exact h.2.symm
    case pos =>
      have hcases : action = "complete" ∨ action = "reschedule" ∨ action = "cancel" ∨
          action = "no_show" ∨ action = "refer" := by
        simpa [AppointmentComponentFactory.strategy_names] using hmem
      rcases hcases with rfl | rfl | rfl | rfl | rfl
      · -- complete
        have hiff := process_propagates db i "complete" k a
          CompleteAppointmentStrategy.execute hg rfl
        refine ⟨⟨?_, ?_⟩, ?_⟩
        · rintro ⟨msg, hmsg⟩
          exact absurd ((hiff msg db).mp hmsg)
            (complete_execute_no_valueError a k db msg db)
        · intro hrhs
          exfalso
          rcases hrhs with h | h | ⟨h, -⟩ | ⟨h, -⟩
          · simp [hg] at h
          · exact h (by decide)
          · exact absurd h (by decide)
          · exact absurd h (by decide)
        · intro msg db' hperr
          exact absurd ((hiff msg db').mp hperr)
            (complete_execute_no_valueError a k db msg db')
      · -- reschedule
        have hiff := process_propagates db i "reschedule" k a
          RescheduleStrategy.execute hg rfl
        have hlem := reschedule_execute_valueError a k db
        cases hnd : k.new_datetime with
        | none =>
          refine ⟨⟨?_, ?_⟩, ?_⟩
          · intro _
            exact Or.inr (Or.inr (Or.inl ⟨rfl, rfl⟩))
          · intro _
            exact ⟨_, (hiff _ db).mpr (hlem.1 hnd)⟩
          · intro msg db' hperr
            have hexec := (hiff msg db').mp hperr
            rw [hlem.1 hnd] at hexec
            simp only [Except.error.injEq, Prod.mk.injEq, PyErr.valueError.injEq] at hexec
            exact hexec.2.symm
        | some t =>
          refine ⟨⟨?_, ?_⟩, ?_⟩
          · rintro ⟨msg, hmsg⟩
            exact absurd ((hiff msg db).mp hmsg) (hlem.2 t hnd msg db)
          · intro hrhs
            exfalso
            rcases hrhs with h | h | ⟨-, h⟩ | ⟨h, -⟩
            · simp [hg] at h
            · exact h (by decide)
            · cases h
            · exact absurd h (by decide)
          · intro msg db' hperr
            exact absurd ((hiff msg db').mp hperr) (hlem.2 t hnd msg db')
      · -- cancel
        have hiff := process_propagates db i "cancel" k a
          CancellationStrategy.execute hg rfl
        refine ⟨⟨?_, ?_⟩, ?_⟩
        · rintro ⟨msg, hmsg⟩
          exact absurd ((hiff msg db).mp hmsg)
            (cancel_execute_no_valueError a k db msg db)
        · intro hrhs
          exfalso
          rcases hrhs with h | h | ⟨h, -⟩ | ⟨h, -⟩
          · simp [hg] at h
          · exact h (by decide)
          · exact absurd h (by decide)
          · exact absurd h (by decide)
        · intro msg db' hperr
          exact absurd ((hiff msg db').mp hperr)
            (cancel_execute_no_valueError a k db msg db')
      · -- no_show
        have hiff := process_propagates db i "no_show" k a
          NoShowStrategy.execute hg rfl
        refine ⟨⟨?_, ?_⟩, ?_⟩
        · rintro ⟨msg, hmsg⟩
          exact absurd ((hiff msg db).mp hmsg)
            (no_show_execute_no_valueError a k db msg db)
        · intro hrhs
          exfalso
          rcases hrhs with h | h | ⟨h, -⟩ | ⟨h, -⟩
          · simp [hg] at h
          · exact h (by decide)
          · exact absurd h (by decide)
          · exact absurd h (by decide)
        · intro msg db' hperr
          exact absurd ((hiff msg db').mp hperr)
            (no_show_execute_no_valueError a k db msg db')
      · -- refer
        have hiff := process_propagates db i "refer" k a
          ReferralStrategy.execute hg rfl
        have hlem := refer_execute_valueError a k db
        cases hnv : k.new_vet with
        | none =>
          refine ⟨⟨?_, ?_⟩, ?_⟩
          · intro _
            exact Or.inr (Or.inr (Or.inr ⟨rfl, rfl⟩))
          · intro _
            exact ⟨_, (hiff _ db).mpr (hlem.1 hnv)⟩
          · intro msg db' hperr
            have hexec := (hiff msg db').mp hperr
            rw [hlem.1 hnv] at hexec
            simp only [Except.error.injEq, Prod.mk.injEq, PyErr.valueError.injEq] at hexec
            exact hexec.2.symm
        | some v =>
          refine ⟨⟨?_, ?_⟩, ?_⟩
          · rintro ⟨msg, hmsg⟩
            exact absurd ((hiff msg db).mp hmsg) (hlem.2 v hnv msg db)
          · intro hrhs
            exfalso
            rcases hrhs with h | h | ⟨h, -⟩ | ⟨-, h⟩
            · simp [hg] at h
            · exact h (by decide)
            · exact absurd h (by decide)
            · cases h
          · intro msg db' hperr
            exact absurd ((hiff msg db').mp hperr) (hlem.2 v hnv msg db')

/-- Counterexample to C5 as stated: on a store where appointment 1 exists
and with the action `'reschedule'` — one of the five strategy names —
`process_appointment` still raises `ValueError`, because the dispatched
strategy requires a `new_datetime` argument. -/
theorem process_reschedule_missing_datetime_cex :
    DjangoAppointmentRepository.get_by_id dbOne.appointments 1 = some sampleConfirmed ∧
    "reschedule" ∈ AppointmentComponentFactory.strategy_names ∧
    AppointmentService.process_appointment dbOne 1 "reschedule" {} =
      .error (.valueError "New datetime is required for rescheduling", dbOne) := by
  exact ⟨rfl, by decide, rfl⟩

/-- Witness: the C5 characterisation evaluated at the singleton store,
id 1, action `'cancel'` and empty kwargs. -/
theorem process_valueError_characterisation_witness :
    ((∃ msg, AppointmentService.process_appointment dbOne 1 "cancel" {} =
        .error (.valueError msg, dbOne)) ↔
      (DjangoAppointmentRepository.get_by_id dbOne.appointments 1 = none ∨
       "cancel" ∉ AppointmentComponentFactory.strategy_names ∨
       ("cancel" = "reschedule" ∧ ({} : Kwargs).new_datetime = none) ∨
       ("cancel" = "refer" ∧ ({} : Kwargs).new_vet = none))) ∧
    (∀ msg db', AppointmentService.process_appointment dbOne 1 "cancel" {} =
        .error (.valueError msg, db') → db' = dbOne) :=
  process_valueError_characterisation dbOne 1 "cancel" {}

/-- C4: `process_appointment(id, 'reschedule', new_datetime=...)` writes
exactly the `date_time` field of the stored appointment — every other field
is unchanged (the result is `{ a with date_time }` and the store maps only
the row with this id to it) — plus one notification email to the pet
owner. -/
theorem process_reschedule_updates_only_datetime (db : DB) (i t : Nat) (r : String)
    (a : Appointment)
    (h : DjangoAppointmentRepository.get_by_id db.appointments i = some a)
    (p : Pet) (hp : a.pet = some p) (v : AUser) (hv : a.veterinarian = some v)
    (td : Nat) (htd : a.date_time = some td) :
    ∃ e : Email,
      AppointmentService.process_appointment db i "reschedule"
          { new_datetime := some t, reason := r } =
        .ok ({ a with date_time := some t },
          { appointments := db.appointments.map
              (fun b => if b.id = some i then { a with date_time := some t } else b)
            emails := db.emails ++ [e] })
      ∧ e.recipients = [p.owner.email] := by
  have haid : a.id = some i := get_by_id_id _ _ _ h
  refine ⟨{ subject := "Appointment Rescheduled"
            message := toString td ++ " " ++ toString t ++ " " ++ r ++ " " ++
              p.name ++ " " ++ v.full_name
            recipients := [p.owner.email] }, ?_, rfl⟩
  unfold AppointmentService.process_appointment
  rw [show AppointmentComponentFactory.get_strategy "reschedule" =
    .ok RescheduleStrategy.execute from rfl]
  simp only [h]
  unfold RescheduleStrategy.execute RescheduleStrategy.notify_rescheduled
  unfold DjangoAppointmentRepository.save withSaved
  simp only [haid, hp, hv, htd, List.map_map]
  congr 1
  congr 1
  congr 1
  refine List.map_congr_left fun b hb => ?_
  by_cases hbid : b.id = some i
  · simp [Function.comp, hbid]
  · simp [Function.comp, hbid]

/-- Witness: C4 evaluated on the singleton store, rescheduling appointment
1 to minute 600. -/
theorem process_reschedule_updates_only_datetime_witness :
    ∃ e : Email,
      AppointmentService.process_appointment dbOne 1 "reschedule"
          { new_datetime := some 600, reason := "" } =
        .ok ({ sampleConfirmed with date_time := some 600 },
          { appointments := dbOne.appointments.map
              (fun b => if b.id = some 1 then
                { sampleConfirmed with date_time := some 600 } else b)
            emails := dbOne.emails ++ [e] })
      ∧ e.recipients = [samplePet.owner.email] :=
  process_reschedule_updates_only_datetime dbOne 1 600 "" sampleConfirmed rfl
    samplePet rfl sampleVet rfl 540 rfl

/-- A stored row's primary key is below the next autoincrement value. -/
theorem mem_id_lt_freshId (db : List Appointment) (a : Appointment) (j : Nat)
    (ha : a ∈ db) (hj : a.id = some j) :
    j < DjangoAppointmentRepository.freshId db := by
  unfold DjangoAppointmentRepository.freshId
  have hmem : j ∈ db.filterMap (fun x => x.id) := List.mem_filterMap.mpr ⟨a, ha, hj⟩
  have hle : ∀ l : List Nat, j ∈ l → j ≤ l.foldr max 0 := by
    intro l
    induction l with
    | nil => intro hx; cases hx
    | cons x xs ih =>
      intro hx
      rcases List.mem_cons.mp hx with rfl | hx'
      · exact le_max_left _ _
      · exact le_trans (ih hx') (le_max_right _ _)
  exact Nat.lt_succ_of_le (hle _ hmem)

/-- C6: appointment creation performs no conflict check — starting from a
store already holding a confirmed appointment of veterinarian `v` at time
`t`, creating another appointment for `v` at `t` via
`AppointmentService.create_appointment` still succeeds, and afterwards both
the old and the freshly inserted appointment are in the store. -/
theorem create_appointment_ignores_conflicts (db : DB) (p : Pet) (v : AUser)
    (branch t : Nat) (a : Appointment) (ha : a ∈ db.appointments)
    (hvet : a.veterinarian = some v) (ht : a.date_time = some t)
    (hst : a.status = "confirmed") :
    a ∈ (AppointmentService.create_appointment_regular db p v branch t).2.appointments ∧
    (AppointmentService.create_appointment_regular db p v branch t).1 ∈
      (AppointmentService.create_appointment_regular db p v branch t).2.appointments ∧
    (AppointmentService.create_appointment_regular db p v branch t).1.veterinarian
      = some v ∧
    (AppointmentService.create_appointment_regular db p v branch t).1.date_time
      = some t ∧
    (AppointmentService.create_appointment_regular db p v branch t).1.status
      = "pending" ∧
    (AppointmentService.create_appointment_regular db p v branch t).1 ≠ a := by
  have hrepr : AppointmentService.create_appointment_regular db p v branch t =
      ({ id := some (DjangoAppointmentRepository.freshId db.appointments)
         pet := some p, service_type := some "regular_checkup"
         veterinarian := some v, date_time := some t, clinic_branch := some branch
         notes := "Regular health checkup", status := "pending" },
       { db with appointments := db.appointments ++
          [{ id := some (DjangoAppointmentRepository.freshId db.appointments)
             pet := some p, service_type := some "regular_checkup"
             veterinarian := some v, date_time := some t, clinic_branch := some branch
             notes := "Regular health checkup", status := "pending" }] }) := rfl
  rw [hrepr]
  refine ⟨List.mem_append_left _ ha, List.mem_append_right _ (by simp),
    rfl, rfl, rfl, ?_⟩
  intro heq
  have hthis : a.id = some (DjangoAppointmentRepository.freshId db.appointments) := by
    rw [← heq]
  exact absurd (mem_id_lt_freshId db.appointments a _ ha hthis) (lt_irrefl _)

/-- Witness: C6 evaluated on the singleton store already containing the
confirmed 9:00 appointment of `sampleVet`. -/
theorem create_appointment_ignores_conflicts_witness :
    sampleConfirmed ∈
      (AppointmentService.create_appointment_regular dbOne samplePet sampleVet
        1 540).2.appointments ∧
    (AppointmentService.create_appointment_regular dbOne samplePet sampleVet
      1 540).1 ∈
      (AppointmentService.create_appointment_regular dbOne samplePet sampleVet
        1 540).2.appointments ∧
    (AppointmentService.create_appointment_regular dbOne samplePet sampleVet
      1 540).1.veterinarian = some sampleVet ∧
    (AppointmentService.create_appointment_regular dbOne samplePet sampleVet
      1 540).1.date_time = some 540 ∧
    (AppointmentService.create_appointment_regular dbOne samplePet sampleVet
      1 540).1.status = "pending" ∧
    (AppointmentService.create_appointment_regular dbOne samplePet sampleVet
      1 540).1 ≠ sampleConfirmed :=
  create_appointment_ignores_conflicts dbOne samplePet sampleVet 1 540
    sampleConfirmed (by simp [dbOne]) rfl rfl rfl

/-- C3 failing input: completing appointment 1 with a follow-up date. The
status, treatment notes, diagnosis and follow-up date are saved, but the
follow-up scheduling then raises `AttributeError` — `_schedule_follow_up`
calls `builder.set_service_type`, a method `AppointmentBuilder` does not
define (it is named `set_service`) — so no follow-up appointment is ever
created: the store inside the propagated error still holds exactly one
appointment. -/
theorem process_complete_followup_raises :
    AppointmentService.process_appointment dbOne 1 "complete"
        { treatment_notes := "tn", diagnosis := "dg", follow_up_date := some 86940 } =
      .error (.attributeError "AppointmentBuilder object has no attribute set_service_type",
        { appointments :=
            [{ sampleConfirmed with
                status := "completed", treatment_notes := "tn", diagnosis := "dg",
                follow_up_date := some 86940 }]
          emails := [] }) := rfl

/-- Counterexample to C7: one call to `notify` with only the email
observer attached creates an `AppointmentNotification` row — a change to
stored state beyond the email send. -/
theorem notify_email_observer_writes_notification_row :
    ∃ w', AppointmentSubject.notify [ObserverKind.emailNotification] sampleConfirmed
        emptyWorld = .ok w' ∧
      w'.notifications.length = 1 ∧ emptyWorld.notifications.length = 0 :=
  ⟨_, rfl, rfl, rfl⟩

/-- C7 as amended: `notify` runs each attached observer synchronously in
attachment order (stopping at the first escaping exception), and for an
appointment whose pet and veterinarian are present the email observer's
effect is one email to the pet owner's address plus one
`AppointmentNotification` row (`is_sent=True`, type `'confirmation'` for a
confirmed appointment, else `'update'`) — and nothing else. -/
theorem notify_email_observer_effects (os : List ObserverKind) (a : Appointment)
    (w : ObserverWorld) (p : Pet) (hp : a.pet = some p)
    (v : AUser) (hv : a.veterinarian = some v) :
    (AppointmentSubject.notify [] a w = .ok w) ∧
    (∀ (o : ObserverKind) (w₀ : ObserverWorld),
      AppointmentSubject.notify (o :: os) a w₀ =
        (o.update a w₀).bind (fun w₁ => AppointmentSubject.notify os a w₁)) ∧
    ∃ e rec, EmailNotificationObserver.update a w =
        .ok { emails := w.emails ++ [e], notifications := w.notifications ++ [rec] } ∧
      e.recipients = [p.owner.email] ∧
      rec.is_sent = true ∧
      rec.appointment_id = a.id ∧
      rec.notification_type =
        (if a.status = "confirmed" then "confirmation" else "update") := by
  refine ⟨rfl, ?_, ?_⟩
  · intro o w₀
    cases h : o.update a w₀ with
    | error e => simp [AppointmentSubject.notify, h, Except.bind]
    | ok w₁ => simp [AppointmentSubject.notify, h, Except.bind]
  · have hupdate : EmailNotificationObserver.update a w =
        .ok { emails := w.emails ++
                [{ subject := "Appointment Update - " ++ a.status
                   message := EmailNotificationObserver.get_message a v
                   recipients := [p.owner.email] }]
              notifications := w.notifications ++
                [{ appointment_id := a.id
                   notification_type :=
                     if a.status = "confirmed" then "confirmation" else "update"
                   message := EmailNotificationObserver.get_message a v
                   is_sent := true }] } := by
      simp only [EmailNotificationObserver.update, hv, hp]
    exact ⟨_, _, hupdate, rfl, rfl, rfl, rfl⟩

/-- Witness: C7 (amended) evaluated at the confirmed sample appointment
with both observers attached and an empty world. -/
theorem notify_email_observer_effects_witness :
    (AppointmentSubject.notify [] sampleConfirmed emptyWorld = .ok emptyWorld) ∧
    (∀ (o : ObserverKind) (w₀ : ObserverWorld),
      AppointmentSubject.notify (o :: [ObserverKind.reminder]) sampleConfirmed w₀ =
        (o.update sampleConfirmed w₀).bind
          (fun w₁ =>
            AppointmentSubject.notify [ObserverKind.reminder] sampleConfirmed w₁)) ∧
    ∃ e rec, EmailNotificationObserver.update sampleConfirmed emptyWorld =
        .ok { emails := emptyWorld.emails ++ [e]
              notifications := emptyWorld.notifications ++ [rec] } ∧
      e.recipients = [samplePet.owner.email] ∧
      rec.is_sent = true ∧
      rec.appointment_id = sampleConfirmed.id ∧
      rec.notification_type =
        (if sampleConfirmed.status = "confirmed" then "confirmation" else "update") :=
  notify_email_observer_effects [ObserverKind.reminder] sampleConfirmed emptyWorld
    samplePet rfl sampleVet rfl
